import Mathlib

/-!
Shallow embedding of the two audio-analysis adapter scripts
(`backend/scripts/whisper_transcribe.py` and
`backend/scripts/speaker_diarize.py`).

Machine floats of the Python code are modelled as rationals; Python's
`round(x, n)` is modelled as rounding `x * 10^n` to the nearest integer
(Python rounds exact halves to even, the model rounds them up; no input
considered here lies on an exact half).  The external engines (Whisper
and the pyannote pipeline) are abstract parameters of the model: a call
either returns a native result or raises, which we model as `Except`
with the string being Python's `str(e)`.  Python's `None`-or-string
values are `Option String`; Python truthiness of strings makes `""`
falsy, which the model reproduces.  The transcription main wraps its
argument in `pathlib.Path`, whose string normalization is modelled (for
POSIX) by `pathStr`.
-/

attribute [local semireducible] Rat.add Rat.sub

namespace Kalakar

/-- Python `round(x, n)` on our rational model: round `x * 10^n` to the
nearest integer and scale back.  For `q = a/b` (with `b > 0`) this is
`⌊(2 * a * 10^n + b) / (2 * b)⌋ / 10^n`, written in integer arithmetic
(`Int.fdiv` floors). -/
def roundTo (n : ℕ) (q : ℚ) : ℚ :=
  let p : ℤ := Int.ofNat (Nat.pow 10 n)
  mkRat ((2 * q.num * p + (q.den : ℤ)).fdiv (2 * (q.den : ℤ))) (Nat.pow 10 n)

/-- Python truthiness of an optional string: `None` and `""` are falsy. -/
def falsy : Option String → Bool
  | none => true
  | some s => s = ""

/-- Python `a or b` on optional strings: keep `a` when truthy, else `b`. -/
def pyOr (a b : Option String) : Option String :=
  if falsy a then b else a

/-- Association-list lookup, modelling Python `dict` key lookup. -/
def alookup {β : Type} : List (ℕ × β) → ℕ → Option β
  | [], _ => none
  | (a, b) :: rest, k => if a = k then some b else alookup rest k

/-- Association-list lookup with string keys (the `speaker_mapping` dict). -/
def slookup {β : Type} : List (String × β) → String → Option β
  | [], _ => none
  | (a, b) :: rest, k => if a = k then some b else slookup rest k

/-- In-place update of an existing key, modelling Python `d[k] = v`
(insertion order of the other entries is preserved). -/
def updateA {β : Type} : List (ℕ × β) → ℕ → β → List (ℕ × β)
  | [], _, _ => []
  | (a, b) :: rest, k, v =>
    if a = k then (a, v) :: rest else (a, b) :: updateA rest k v

/-! ## Diarization adapter: data model (`speaker_diarize.py`) -/

/-- One (turn, speaker-label) pair yielded by
`diarization.itertracks(yield_label=True)`.  `stop` models the Python
attribute `turn.end` (`end` is a Lean keyword). -/
structure Turn where
  start : ℚ
  stop : ℚ
  speaker : String
deriving DecidableEq, Repr

/-- One entry of the emitted `segments` list. -/
structure Segment where
  start : ℚ
  stop : ℚ
  speaker : String
  speakerId : ℕ
deriving DecidableEq, Repr

/-- One entry of the emitted `speakers` list. -/
structure SpeakerInfo where
  id : ℕ
  name : String
  total_duration : ℚ
deriving DecidableEq, Repr

/-- The success payload of a diarization run (`success:true` dict minus
the `success` key). -/
structure DiarizationSuccess where
  method : String
  speaker_count : ℕ
  segments : List Segment
  speakers : List SpeakerInfo
deriving DecidableEq, Repr

/-- A diarization adapter result: the `success:true` payload or the
`success:false` dict's `error` string. -/
inductive DiarizationResult where
  | ok (value : DiarizationSuccess)
  | err (error : String)
deriving DecidableEq, Repr

/-- `simple_diarization`: the fallback path, ignoring the audio. -/
def simple_diarization (_audio_path : String) : DiarizationSuccess :=
  { method := "fallback"
    speaker_count := 1
    segments := []
    speakers := [{ id := 1, name := "Speaker 1", total_duration := 0 }] }

/-- The mutable state of the result-processing loop in
`pyannote_diarization`: `segments`, `speaker_times`, `speaker_mapping`,
`speaker_counter`. -/
structure DiarState where
  segments : List Segment
  speaker_times : List (ℕ × ℚ)
  speaker_mapping : List (String × ℕ)
  speaker_counter : ℕ
deriving DecidableEq, Repr

/-- One iteration of the `for turn, _, speaker in diarization.itertracks(...)`
loop of `pyannote_diarization`. -/
def diarStep (st : DiarState) (t : Turn) : DiarState :=
  let mc : List (String × ℕ) × ℕ :=
    match slookup st.speaker_mapping t.speaker with
    | some _ => (st.speaker_mapping, st.speaker_counter)
    | none => (st.speaker_mapping ++ [(t.speaker, st.speaker_counter)],
               st.speaker_counter + 1)
  let speaker_id : ℕ := (slookup mc.1 t.speaker).getD 0
  let speaker_name : String := "Speaker " ++ toString speaker_id
  let times : List (ℕ × ℚ) :=
    match alookup st.speaker_times speaker_id with
    | some d => updateA st.speaker_times speaker_id (d + (t.stop - t.start))
    | none => st.speaker_times ++ [(speaker_id, 0 + (t.stop - t.start))]
  { segments := st.segments ++
      [{ start := roundTo 3 t.start, stop := roundTo 3 t.stop,
         speaker := speaker_name, speakerId := speaker_id }]
    speaker_times := times
    speaker_mapping := mc.1
    speaker_counter := mc.2 }

/-- The pure result-shaping part of `pyannote_diarization` (lines 69-112):
given the engine's ordered (turn, label) pairs, build the success payload.
`sorted(speaker_times.items())` sorts the id-keyed dict items by key. -/
def pyannoteProcess (turns : List Turn) : DiarizationSuccess :=
  let st := turns.foldl diarStep
    { segments := [], speaker_times := [], speaker_mapping := [],
      speaker_counter := 1 }
  let speakers := (st.speaker_times.insertionSort (fun p q => p.1 ≤ q.1)).map
    fun p => { id := p.1, name := "Speaker " ++ toString p.1,
               total_duration := roundTo 2 p.2 : SpeakerInfo }
  { method := "pyannote"
    speaker_count := speakers.length
    segments := st.segments
    speakers := speakers }

/-- The environment a diarization invocation runs against: the file
system, the process environment, whether `pyannote.audio` is importable,
and the engine itself (pipeline load + GPU move + run, collapsed into one
call that takes the auth token and the audio path and either yields the
turn/label pairs or raises). -/
structure DiarEnv where
  pathExists : String → Bool
  getenv : String → Option String
  pyannoteAvailable : Bool
  runPipeline : String → String → Except String (List Turn)

/-- `pyannote_diarization(audio_path, hf_token)`: import check, token
resolution (`hf_token or os.environ.get("HUGGINGFACE_TOKEN") or
os.environ.get("HF_TOKEN")`, then `if not token`), engine invocation with
the `try/except` converting any exception to the error dict. -/
def pyannote_diarization (env : DiarEnv) (audio_path : String)
    (hf_token : Option String) : DiarizationResult :=
  if env.pyannoteAvailable = false then
    .err "pyannote.audio not installed. Run: pip install pyannote.audio torch"
  else
    let token := pyOr (pyOr hf_token (env.getenv "HUGGINGFACE_TOKEN"))
      (env.getenv "HF_TOKEN")
    if falsy token then
      .err "HuggingFace token required. Set HUGGINGFACE_TOKEN environment variable."
    else
      match env.runPipeline (token.getD "") audio_path with
      | .error e => .err e
      | .ok turns => .ok (pyannoteProcess turns)

/-- What one invocation of an adapter produces: the printed JSON result
and the process exit code. -/
structure DiarOutput where
  result : DiarizationResult
  exitCode : ℕ
deriving DecidableEq, Repr

/-- `main()` of `speaker_diarize.py`: existence check, `--simple`
dispatch, exit code `0 if result.get("success") else 1`. -/
def diarize_main (env : DiarEnv) (audio_path : String) (token : Option String)
    (simple : Bool) : DiarOutput :=
  if env.pathExists audio_path = false then
    { result := .err ("Audio file not found: " ++ audio_path), exitCode := 1 }
  else
    let result := if simple then .ok (simple_diarization audio_path)
      else pyannote_diarization env audio_path token
    { result := result
      exitCode := match result with | .ok _ => 0 | .err _ => 1 }

/-! ## Transcription adapter: data model (`whisper_transcribe.py`) -/

/-- One word entry of a native Whisper segment, with the extra per-word
probability field Whisper provides (dropped by the adapter). -/
structure NativeWord where
  word : String
  start : ℚ
  stop : ℚ
  probability : Option ℚ
deriving DecidableEq, Repr

/-- One native Whisper segment; `words` is `none` when the key is absent
(`if "words" in segment`). -/
structure NativeSegment where
  start : ℚ
  stop : ℚ
  text : String
  words : Option (List NativeWord)
deriving DecidableEq, Repr

/-- The native dict returned by `model.transcribe`; `language` and
`segments` are `none` when the keys are absent (`result.get("language",
...)`, `if "segments" in result`). -/
structure WhisperNative where
  text : String
  language : Option String
  segments : Option (List NativeSegment)
deriving DecidableEq, Repr

/-- One entry of the formatted `segments` list. -/
structure TransSegment where
  start : ℚ
  stop : ℚ
  text : String
deriving DecidableEq, Repr

/-- One entry of the formatted top-level `words` list. -/
structure TransWord where
  word : String
  start : ℚ
  stop : ℚ
deriving DecidableEq, Repr

/-- The success payload of a transcription run. -/
structure TransSuccess where
  text : String
  language : String
  segments : List TransSegment
  words : List TransWord
deriving DecidableEq, Repr

/-- A transcription adapter result. -/
inductive TransResult where
  | ok (value : TransSuccess)
  | err (error : String)
deriving DecidableEq, Repr

/-- The options dict built by `transcribe_audio` and passed to
`model.transcribe`. -/
structure TransOptions where
  word_timestamps : Bool
  verbose : Bool
  language : Option String
deriving DecidableEq, Repr

/-- Lines 40-46 of `whisper_transcribe.py`: always request word
timestamps, add `language` only when `language and language != "auto"`
(Python truthiness: `None` and `""` are falsy). -/
def transcribeOptions (language : Option String) : TransOptions :=
  let base : TransOptions :=
    { word_timestamps := true, verbose := false, language := none }
  if falsy language = false ∧ language ≠ some "auto" then
    { base with language := language }
  else base

/-- Lines 51-79 of `whisper_transcribe.py`: shape the native result into
the formatted dict (flatten segments; flatten each segment's words,
keeping only `word`/`start`/`end`). -/
def format_result (native : WhisperNative) : TransSuccess :=
  { text := native.text
    language := native.language.getD "unknown"
    segments := (native.segments.getD []).map fun s =>
      { start := s.start, stop := s.stop, text := s.text }
    words := (native.segments.getD []).flatMap fun s =>
      (s.words.getD []).map fun w =>
        { word := w.word, start := w.start, stop := w.stop } }

/-- The environment a transcription invocation runs against: the file
system, whether the module-level `import whisper` succeeds, and the
engine (model load + `model.transcribe`, collapsed into one call taking
the model name, the audio path and the options, either yielding the
native result or raising). -/
structure TransEnv where
  pathExists : String → Bool
  whisperAvailable : Bool
  whisperRun : String → String → TransOptions → Except String WhisperNative

/-- `transcribe_audio(audio_path, model_name, language)`: engine
invocation with the `try/except` converting any exception to the error
dict. -/
def transcribe_audio (env : TransEnv) (audio_path : String)
    (model_name : String) (language : Option String) : TransResult :=
  match env.whisperRun model_name audio_path (transcribeOptions language) with
  | .error e => .err e
  | .ok native => .ok (format_result native)

/-- What one invocation of the transcription adapter produces. -/
structure TransOutput where
  result : TransResult
  exitCode : ℕ
deriving DecidableEq, Repr

/-- Split a character list on `/`, keeping empty components. -/
def splitSlashAux : List Char → List Char → List String
  | [], acc => [String.mk acc.reverse]
  | c :: cs, acc =>
    if c = '/' then String.mk acc.reverse :: splitSlashAux cs []
    else splitSlashAux cs (c :: acc)

/-- Number of leading `/` characters. -/
def leadSlashes : List Char → ℕ
  | '/' :: cs => leadSlashes cs + 1
  | _ => 0

/-- Join path components with `/`. -/
def joinSlash : List String → String
  | [] => ""
  | [s] => s
  | s :: rest => s ++ "/" ++ joinSlash rest

/-- Python `str(Path(p))` on POSIX (`pathlib.PurePosixPath`): drop empty
and `.` components (keeping `..`), keep the root (`/`, or `//` for
exactly two leading slashes), and render `.` when nothing remains.  So
`foo//bar.wav` becomes `foo/bar.wav`, `./x` becomes `x`, `dir/` becomes
`dir`. -/
def pathStr (p : String) : String :=
  let comps := (splitSlashAux p.data []).filter
    (fun s => decide (s ≠ "") && decide (s ≠ "."))
  let k := leadSlashes p.data
  let root := if k = 2 then "//" else if k = 0 then "" else "/"
  if root = "" ∧ comps = [] then "." else root ++ joinSlash comps

/-- `whisper_transcribe.py` as a whole process: the module-level
`import whisper` guard (which runs before argument parsing and prints its
own error dict), then `main()`.  `main` wraps the argument as
`audio_path = Path(args.audio_path)`, so both the existence check and the
not-found message use the normalized form `str(Path(...))` (modelled by
`pathStr`), while `transcribe_audio` receives the raw `args.audio_path`.
Exit code 1 unless `success`. -/
def whisper_main (env : TransEnv) (audio_path : String) (model : String)
    (language : Option String) : TransOutput :=
  if env.whisperAvailable = false then
    { result := .err "Whisper not installed. Run: pip install openai-whisper"
      exitCode := 1 }
  else if env.pathExists (pathStr audio_path) = false then
    { result := .err ("Audio file not found: " ++ pathStr audio_path), exitCode := 1 }
  else
    let result := transcribe_audio env audio_path model language
    { result := result
      exitCode := match result with | .ok _ => 0 | .err _ => 1 }

/-! ## Substring containment (for "error message contains the path") -/

/-- `leadsWith pat s`: the char list `s` starts with `pat`. -/
def leadsWith : List Char → List Char → Bool
  | [], _ => true
  | _ :: _, [] => false
  | p :: ps, c :: cs => p = c && leadsWith ps cs

/-- `occursInL pat s`: the char list `pat` occurs contiguously in `s`. -/
def occursInL (pat : List Char) : List Char → Bool
  | [] => leadsWith pat []
  | c :: cs => leadsWith pat (c :: cs) || occursInL pat cs

/-- `occursIn pat s`: the string `pat` occurs as a substring of `s`. -/
def occursIn (pat s : String) : Bool := occursInL pat.data s.data

/-! ## Declarative descriptions used to state the claims -/

/-- The distinct elements of `ls` in order of first appearance. -/
def firstSeen (ls : List String) : List String :=
  ls.foldl (fun acc l => if l ∈ acc then acc else acc ++ [l]) []

/-- Pair each element of `ls` with consecutive ids starting at `n`. -/
def withIds : List String → ℕ → List (String × ℕ)
  | [], _ => []
  | l :: ls, n => (l, n) :: withIds ls (n + 1)

/-- The dense id a label receives: its position (starting at 1) in the
order of first appearance of the labels of `turns`. -/
def idOf (turns : List Turn) (l : String) : ℕ :=
  (slookup (withIds (firstSeen (turns.map Turn.speaker)) 1) l).getD 0

/-- Sum of `(end - start)` over the turns of `turns` carrying label `l`. -/
def turnDurSum (turns : List Turn) (l : String) : ℚ :=
  ((turns.filter (fun t => t.speaker = l)).map (fun t => t.stop - t.start)).sum

/-- Sum of `(end - start)` over the segment entries with `speakerId = i`. -/
def segDurSum (segs : List Segment) (i : ℕ) : ℚ :=
  ((segs.filter (fun s => s.speakerId = i)).map (fun s => s.stop - s.start)).sum

/-- Declarative form of the emitted `segments`: original turn order, 3-decimal
rounded endpoints, each turn's label replaced by its dense first-appearance id. -/
def segmentsSpec (turns : List Turn) : List Segment :=
  turns.map fun t =>
    { start := roundTo 3 t.start, stop := roundTo 3 t.stop,
      speaker := "Speaker " ++ toString (idOf turns t.speaker),
      speakerId := idOf turns t.speaker }

/-- Declarative form of the emitted `speakers`: one entry per distinct label in
first-appearance order, ids dense from 1, totals summed over the label's turns
and rounded to 2 decimal places. -/
def speakersSpec (turns : List Turn) : List SpeakerInfo :=
  (withIds (firstSeen (turns.map Turn.speaker)) 1).map fun p =>
    { id := p.2, name := "Speaker " ++ toString p.2,
      total_duration := roundTo 2 (turnDurSum turns p.1) }

/-- The loop state after processing a prefix of turns, in declarative form. -/
def declState (processed : List Turn) : DiarState :=
  { segments := segmentsSpec processed
    speaker_times := (withIds (firstSeen (processed.map Turn.speaker)) 1).map
      (fun p => (p.2, turnDurSum processed p.1))
    speaker_mapping := withIds (firstSeen (processed.map Turn.speaker)) 1
    speaker_counter := (firstSeen (processed.map Turn.speaker)).length + 1 }

/-- Modelled from the spec: `resolveCredential(argOpt, envNames)` — the
credential is the first truthy value among the explicit argument, the
primary environment variable and the secondary one (section 3 of the
spec, "resolved from (in priority order) an explicit argument, then one
of two named environment variables"). -/
def resolveCredential (arg env1 env2 : Option String) : Option String :=
  if falsy arg = false then arg
  else if falsy env1 = false then env1
  else if falsy env2 = false then env2
  else none

/-! ## Concrete fixtures for witnesses and counterexamples -/

/-- The engine output of the spec's synthetic example: labels `[A,B,A]`
with durations `[2.0, 1.5, 3.0]`. -/
def exampleTurns : List Turn :=
  [⟨0, 2, "A"⟩, ⟨2, mkRat 7 2, "B"⟩, ⟨mkRat 7 2, mkRat 13 2, "A"⟩]

/-- A one-turn engine output whose raw duration (0.996) rounds differently
at 2 decimal places (totals) than the 3-decimal segment endpoints suggest. -/
def roundingTurns : List Turn := [⟨mkRat 1 250, 1, "A"⟩]

/-- Diarization environment: file present, no environment variables,
pyannote importable, engine yields the synthetic example turns. -/
def diarEnvReady : DiarEnv :=
  { pathExists := fun _ => true, getenv := fun _ => none,
    pyannoteAvailable := true, runPipeline := fun _ _ => .ok exampleTurns }

/-- Diarization environment: pyannote not importable, a token present in
both environment variables. -/
def diarEnvNoPyannote : DiarEnv :=
  { pathExists := fun _ => true, getenv := fun _ => some "envtok",
    pyannoteAvailable := false, runPipeline := fun _ _ => .error "boom" }

/-- Diarization environment: pyannote importable, every environment
variable set to the empty string. -/
def diarEnvEmptyVars : DiarEnv :=
  { pathExists := fun _ => true, getenv := fun _ => some "",
    pyannoteAvailable := true, runPipeline := fun _ _ => .error "boom" }

/-- Diarization environment: pyannote importable, token in the primary
environment variable, engine raises a CUDA error. -/
def diarEnvRaise : DiarEnv :=
  { pathExists := fun _ => true,
    getenv := fun n => if n = "HUGGINGFACE_TOKEN" then some "envtok" else none,
    pyannoteAvailable := true,
    runPipeline := fun _ _ => .error "CUDA out of memory" }

/-- Diarization environment: engine raises an exception whose string form
is empty (Python `str(Exception())`). -/
def diarEnvRaiseEmpty : DiarEnv :=
  { pathExists := fun _ => true, getenv := fun _ => some "envtok",
    pyannoteAvailable := true, runPipeline := fun _ _ => .error "" }

/-- Diarization environment: the audio file does not exist. -/
def diarEnvMissing : DiarEnv :=
  { pathExists := fun _ => false, getenv := fun _ => some "envtok",
    pyannoteAvailable := true, runPipeline := fun _ _ => .error "boom" }

/-- A two-segment, two-words-each native Whisper result (with per-word
probabilities, which the adapter must drop). -/
def nativeTwoByTwo : WhisperNative :=
  { text := "hello world again friend"
    language := some "en"
    segments :=
      some [{ start := 0, stop := 1, text := "hello world",
              words := some [⟨"hello", 0, mkRat 1 2, some (mkRat 9 10)⟩,
                             ⟨"world", mkRat 1 2, 1, some (mkRat 4 5)⟩] },
            { start := 1, stop := 2, text := "again friend",
              words := some [⟨"again", 1, mkRat 3 2, none⟩,
                             ⟨"friend", mkRat 3 2, 2, some (mkRat 1 5)⟩] }] }

/-- Transcription environment: file present, whisper importable, engine
yields the two-by-two native result. -/
def transEnvOk : TransEnv :=
  { pathExists := fun _ => true, whisperAvailable := true,
    whisperRun := fun _ _ _ => .ok nativeTwoByTwo }

/-- Transcription environment: file missing and whisper not importable. -/
def transEnvMissingNoWhisper : TransEnv :=
  { pathExists := fun _ => false, whisperAvailable := false,
    whisperRun := fun _ _ _ => .error "boom" }

/-- Transcription environment: file missing, whisper importable. -/
def transEnvMissing : TransEnv :=
  { pathExists := fun _ => false, whisperAvailable := true,
    whisperRun := fun _ _ _ => .error "boom" }

/-- Transcription environment: engine raises a CUDA error. -/
def transEnvRaise : TransEnv :=
  { pathExists := fun _ => true, whisperAvailable := true,
    whisperRun := fun _ _ _ => .error "CUDA out of memory" }

/-- Transcription environment: engine raises an exception whose string
form is empty. -/
def transEnvRaiseEmpty : TransEnv :=
  { pathExists := fun _ => true, whisperAvailable := true,
    whisperRun := fun _ _ _ => .error "" }

/-! ## Helper lemmas -/

theorem leadsWith_append (p ys : List Char) : leadsWith p (p ++ ys) = true := by
  induction p with
  | nil => rfl
  | cons a ps ih => simp [leadsWith, ih]

theorem occursInL_of_right (pat s : List Char) (pre : List Char)
    (h : occursInL pat s = true) : occursInL pat (pre ++ s) = true := by
  induction pre with
  | nil => simpa using h
  | cons c cs ih =>
    simp only [List.cons_append, occursInL, Bool.or_eq_true]
    exact Or.inr ih

theorem occursInL_self (pat ys : List Char) : occursInL pat (pat ++ ys) = true := by
  cases pat with
  | nil =>
    cases ys with
    | nil => rfl
    | cons c cs => simp [occursInL, leadsWith]
  | cons a ps =>
    simp only [List.cons_append, occursInL, Bool.or_eq_true]
    exact Or.inl (leadsWith_append (a :: ps) ys)

theorem occursIn_append_self (pre pat : String) :
    occursIn pat (pre ++ pat) = true := by
  unfold occursIn
  rw [String.data_append]
  have h := occursInL_self pat.data []
  rw [List.append_nil] at h
  exact occursInL_of_right pat.data pat.data pre.data h

/-! ## Claim C7: the `--simple` fallback path -/

/-- C7: for every existing audio file, invoking the diarization adapter
with `--simple` returns exactly the fallback document (`success:true`,
`method:"fallback"`, one speaker named "Speaker 1" with zero total
duration, no segments) regardless of audio content and environment, and
exits with code 0. -/
theorem claim_C7 (env : DiarEnv) (audio_path : String) (token : Option String)
    (h : env.pathExists audio_path = true) :
    diarize_main env audio_path token true =
      { result := .ok
          { method := "fallback", speaker_count := 1, segments := [],
            speakers := [{ id := 1, name := "Speaker 1", total_duration := 0 }] }
        exitCode := 0 } := by
  simp [diarize_main, h, simple_diarization]

/-- C7 witness: the fallback output at a concrete environment and path. -/
theorem claim_C7_witness :
    diarize_main diarEnvRaise "talk.wav" none true =
      { result := .ok
          { method := "fallback", speaker_count := 1, segments := [],
            speakers := [{ id := 1, name := "Speaker 1", total_duration := 0 }] }
        exitCode := 0 } :=
  claim_C7 diarEnvRaise "talk.wav" none rfl

/-! ## Claim C8: missing pyannote import -/

/-- C8: invoked without `--simple` on an existing file with the engine
library not importable, the adapter returns `success:false` with the
installation-instructions error and exit code 1; the result is the same
for every credential argument and every environment-variable content,
and the engine is never consulted. -/
theorem claim_C8 (env : DiarEnv) (audio_path : String) (token : Option String)
    (hexists : env.pathExists audio_path = true)
    (himp : env.pyannoteAvailable = false) :
    diarize_main env audio_path token false =
      { result := .err "pyannote.audio not installed. Run: pip install pyannote.audio torch"
        exitCode := 1 }
  ∧ (∀ token' getenv' rp,
      diarize_main { env with getenv := getenv', runPipeline := rp } audio_path token' false =
        diarize_main env audio_path token false) := by
  constructor
  · simp [diarize_main, hexists, pyannote_diarization, himp]
  · intro token' getenv' rp
    simp [diarize_main, hexists, pyannote_diarization, himp]

/-- C8 witness: the import-missing error at a concrete environment, path
and credential configuration. -/
theorem claim_C8_witness :
    diarize_main diarEnvNoPyannote "talk.wav" (some "cli-token") false =
      { result := .err "pyannote.audio not installed. Run: pip install pyannote.audio torch"
        exitCode := 1 } :=
  (claim_C8 diarEnvNoPyannote "talk.wav" (some "cli-token") rfl rfl).1

/-! ## Claim C5: credential resolution order -/

theorem pyOr_falsy (a b : Option String) (h : falsy a = true) : pyOr a b = b := by
  simp [pyOr, h]

theorem pyOr_truthy (a b : Option String) (h : falsy a = false) : pyOr a b = a := by
  simp [pyOr, h]

/-- The code's truthiness-based `or` chain plus the `if not token` check
computes exactly the spec's priority-order credential resolution. -/
theorem resolveCredential_eq_chain (arg e1 e2 : Option String) :
    resolveCredential arg e1 e2 =
      (if falsy (pyOr (pyOr arg e1) e2) then none else pyOr (pyOr arg e1) e2) := by
  unfold resolveCredential pyOr
  rcases harg : falsy arg with _ | _ <;>
    rcases he1 : falsy e1 with _ | _ <;>
      rcases he2 : falsy e2 with _ | _ <;>
        simp_all [falsy]

/-- C5: on the engine path the credential is the first truthy value among
the `--token` argument, `HUGGINGFACE_TOKEN` and `HF_TOKEN` (in that
order); when none is truthy the adapter returns the credential-required
error, otherwise the resolved value is what reaches the engine. -/
theorem claim_C5 (env : DiarEnv) (audio_path : String) (arg : Option String)
    (himp : env.pyannoteAvailable = true) :
    (resolveCredential arg (env.getenv "HUGGINGFACE_TOKEN") (env.getenv "HF_TOKEN") = none →
      pyannote_diarization env audio_path arg =
        .err "HuggingFace token required. Set HUGGINGFACE_TOKEN environment variable.")
  ∧ (∀ t, resolveCredential arg (env.getenv "HUGGINGFACE_TOKEN") (env.getenv "HF_TOKEN") = some t →
      pyannote_diarization env audio_path arg =
        (match env.runPipeline t audio_path with
         | .error e => .err e
         | .ok turns => .ok (pyannoteProcess turns))) := by
  have hre := resolveCredential_eq_chain arg (env.getenv "HUGGINGFACE_TOKEN")
    (env.getenv "HF_TOKEN")
  constructor
  · intro hnone
    rw [hnone] at hre
    rcases hfal : falsy (pyOr (pyOr arg (env.getenv "HUGGINGFACE_TOKEN")) (env.getenv "HF_TOKEN")) with _ | _
    · rw [hfal, if_neg (by simp)] at hre
      rw [← hre] at hfal
      simp [falsy] at hfal
    · simp [pyannote_diarization, himp, hfal]
  · intro t hsome
    rw [hsome] at hre
    rcases hfal : falsy (pyOr (pyOr arg (env.getenv "HUGGINGFACE_TOKEN")) (env.getenv "HF_TOKEN")) with _ | _
    · rw [hfal, if_neg (by simp)] at hre
      rw [← hre] at hfal
      simp [pyannote_diarization, himp, ← hre, hfal]
    · rw [hfal, if_pos rfl] at hre
      simp at hre

/-- C5 witness: with no truthy source anywhere, the concrete environment
yields the credential-required error. -/
theorem claim_C5_witness :
    pyannote_diarization diarEnvReady "talk.wav" none =
      .err "HuggingFace token required. Set HUGGINGFACE_TOKEN environment variable." :=
  (claim_C5 diarEnvReady "talk.wav" none rfl).1 rfl

/-! ## Claim C10: empty-string credentials are treated as absent -/

/-- C10: an explicit `--token` equal to the empty string behaves exactly
like an absent argument (resolution falls through to the environment
variables), and when the environment variables are empty strings as well
the adapter reports the credential-required error. -/
theorem claim_C10 :
    (∀ env audio_path, pyannote_diarization env audio_path (some "") =
      pyannote_diarization env audio_path none)
  ∧ (∀ (env : DiarEnv) audio_path (tok : Option String),
      env.pyannoteAvailable = true →
      falsy tok = true →
      falsy (env.getenv "HUGGINGFACE_TOKEN") = true →
      falsy (env.getenv "HF_TOKEN") = true →
      pyannote_diarization env audio_path tok =
        .err "HuggingFace token required. Set HUGGINGFACE_TOKEN environment variable.") := by
  constructor
  · intro env audio_path
    simp [pyannote_diarization, pyOr, falsy]
  · intro env audio_path tok himp h1 h2 h3
    rw [pyannote_diarization]
    rw [pyOr_falsy _ _ h1, pyOr_falsy _ _ h2, himp]
    simp [h3]

/-- C10 witness: empty `--token` with empty environment variables gives
the credential-required error at a concrete environment. -/
theorem claim_C10_witness :
    pyannote_diarization diarEnvEmptyVars "talk.wav" (some "") =
      .err "HuggingFace token required. Set HUGGINGFACE_TOKEN environment variable." :=
  claim_C10.2 diarEnvEmptyVars "talk.wav" (some "") rfl rfl rfl rfl

/-! ## Claim C2: non-existent audio path -/

/-- C2 counterexample, two refutations on the transcription side.  When
the engine library is not there, the module-level guard fires before the
path check, so a non-existent path yields `success:false` and exit 1 but
with an error message that does not contain the path.  And even with the
library present, the not-found message interpolates the normalized
`str(Path(...))`, so for the non-canonical path `foo//bar.wav` the
message `Audio file not found: foo/bar.wav` does not contain the literal
path either — contradicting the claim that both adapters always include
the literal path. -/
theorem claim_C2_cex :
    (transEnvMissingNoWhisper.pathExists "missing.wav" = false
      ∧ whisper_main transEnvMissingNoWhisper "missing.wav" "small" none =
          { result := .err "Whisper not installed. Run: pip install openai-whisper"
            exitCode := 1 }
      ∧ occursIn "missing.wav"
          "Whisper not installed. Run: pip install openai-whisper" = false)
  ∧ (transEnvMissing.whisperAvailable = true
      ∧ transEnvMissing.pathExists (pathStr "foo//bar.wav") = false
      ∧ whisper_main transEnvMissing "foo//bar.wav" "small" none =
          { result := .err "Audio file not found: foo/bar.wav", exitCode := 1 }
      ∧ occursIn "foo//bar.wav" "Audio file not found: foo/bar.wav" = false) :=
  ⟨⟨rfl, rfl, by decide⟩, ⟨rfl, rfl, rfl, by decide⟩⟩

/-- C2 (amended): for a non-existent `audio_path` the diarization adapter
returns `success:false` with an error containing the literal path and
exits 1; the transcription adapter, whenever its module-level engine
load succeeds, returns `success:false` with the error naming the
normalized path `str(Path(audio_path))` and exits 1 — containing the
literal path whenever the path is already in canonical form; in both
adapters the output is independent of the engine (no engine load is
attempted); when the transcription import fails the adapter instead
exits 1 with an import error that lacks the path. -/
theorem claim_C2_amended (denv : DiarEnv) (tenv : TransEnv)
    (path model : String) (tok lang : Option String) (simple : Bool)
    (hd : denv.pathExists path = false)
    (ht : tenv.pathExists (pathStr path) = false)
    (hw : tenv.whisperAvailable = true) :
    diarize_main denv path tok simple =
      { result := .err ("Audio file not found: " ++ path), exitCode := 1 }
  ∧ occursIn path ("Audio file not found: " ++ path) = true
  ∧ whisper_main tenv path model lang =
      { result := .err ("Audio file not found: " ++ pathStr path), exitCode := 1 }
  ∧ (pathStr path = path →
      occursIn path ("Audio file not found: " ++ pathStr path) = true)
  ∧ (∀ avail rp, diarize_main
      { denv with pyannoteAvailable := avail, runPipeline := rp } path tok simple =
        diarize_main denv path tok simple)
  ∧ (∀ wr, whisper_main { tenv with whisperRun := wr } path model lang =
      whisper_main tenv path model lang) := by
  refine ⟨?_, occursIn_append_self "Audio file not found: " path, ?_, ?_, ?_, ?_⟩
  · simp [diarize_main, hd]
  · simp [whisper_main, hw, ht]
  · intro hcanon
    rw [hcanon]
    exact occursIn_append_self "Audio file not found: " path
  · intro avail rp
    simp [diarize_main, hd]
  · intro wr
    simp [whisper_main, hw, ht]

/-- C2 witness: the not-found outputs at a concrete missing path (which
is already canonical). -/
theorem claim_C2_witness :
    diarize_main diarEnvMissing "missing.wav" none false =
      { result := .err ("Audio file not found: " ++ "missing.wav"), exitCode := 1 }
  ∧ whisper_main transEnvMissing "missing.wav" "small" none =
      { result := .err ("Audio file not found: " ++ pathStr "missing.wav")
        exitCode := 1 } :=
  ⟨(claim_C2_amended diarEnvMissing transEnvMissing "missing.wav" "small" none
      none false rfl rfl rfl).1,
   (claim_C2_amended diarEnvMissing transEnvMissing "missing.wav" "small" none
      none false rfl rfl rfl).2.2.1⟩

/-! ## Claim C4: engine exceptions are caught -/

/-- C4 counterexample: an exception whose Python string form is empty
(`str(Exception())` is `""`) is caught and surfaced with an error string
equal to the stringified exception — but that string is empty, refuting
the claim's "non-empty error string" at this input. -/
theorem claim_C4_cex :
    transcribe_audio transEnvRaiseEmpty "talk.wav" "small" none = .err ""
  ∧ pyannote_diarization diarEnvRaiseEmpty "talk.wav" none = .err ""
  ∧ ("" : String).length = 0 :=
  ⟨rfl, rfl, rfl⟩

/-- C4 (amended): every exception raised inside engine invocation in
either adapter is caught and the adapter returns `success:false` with the
error string equal to the stringified exception (so non-empty whenever
the stringified exception is non-empty), and the process exits with code
1 rather than an unhandled fault. -/
theorem claim_C4_amended (tenv : TransEnv) (denv : DiarEnv)
    (path model tok e e' : String) (lang arg : Option String)
    (htw : tenv.whisperAvailable = true)
    (htp : tenv.pathExists (pathStr path) = true)
    (hrun : tenv.whisperRun model path (transcribeOptions lang) = .error e)
    (hdp : denv.pathExists path = true) (hdi : denv.pyannoteAvailable = true)
    (hfal : falsy (pyOr (pyOr arg (denv.getenv "HUGGINGFACE_TOKEN"))
      (denv.getenv "HF_TOKEN")) = false)
    (htok : pyOr (pyOr arg (denv.getenv "HUGGINGFACE_TOKEN"))
      (denv.getenv "HF_TOKEN") = some tok)
    (hdr : denv.runPipeline tok path = .error e') :
    whisper_main tenv path model lang = { result := .err e, exitCode := 1 }
  ∧ diarize_main denv path arg false = { result := .err e', exitCode := 1 } := by
  constructor
  · simp [whisper_main, htw, htp, transcribe_audio, hrun]
  · rw [htok] at hfal
    simp [diarize_main, hdp, pyannote_diarization, hdi, htok, hfal, hdr]

/-- C4 witness: a CUDA out-of-memory exception in either engine surfaces
as the error string with exit code 1. -/
theorem claim_C4_witness :
    whisper_main transEnvRaise "talk.wav" "small" none =
      { result := .err "CUDA out of memory", exitCode := 1 }
  ∧ diarize_main diarEnvRaise "talk.wav" none false =
      { result := .err "CUDA out of memory", exitCode := 1 } :=
  claim_C4_amended transEnvRaise diarEnvRaise "talk.wav" "small" "envtok"
    "CUDA out of memory" "CUDA out of memory" none none
    rfl rfl rfl rfl rfl rfl rfl rfl

/-! ## Claim C9: language option handling -/

/-- C9 counterexample: a language explicitly supplied as the empty string
is not the auto-detect sentinel, yet its Python falsiness means no
language option is passed to the engine — refuting the claimed "if and
only if". -/
theorem claim_C9_cex :
    (transcribeOptions (some "")).language = none
  ∧ some "" ≠ (none : Option String)
  ∧ "" ≠ "auto" :=
  ⟨rfl, by decide, by decide⟩

/-- C9 (amended): the language option reaching the engine is `some s`
exactly when the supplied language is `some s` with `s` non-empty and not
the sentinel `"auto"`; and the mapped result's `language` is the engine's
language when present and the default `"unknown"` when the engine omits
it. -/
theorem claim_C9_amended :
    (∀ (l : Option String) (s : String),
      (transcribeOptions l).language = some s ↔
        l = some s ∧ s ≠ "" ∧ s ≠ "auto")
  ∧ (∀ native : WhisperNative,
      (format_result native).language =
        match native.language with
        | none => "unknown"
        | some l => l) := by
  constructor
  · intro l s
    cases l with
    | none => simp [transcribeOptions, falsy]
    | some v =>
      by_cases hv : v = ""
      · subst hv
        simp [transcribeOptions, falsy]
        rintro rfl
        simp
      · by_cases hauto : v = "auto"
        · subst hauto
          simp [transcribeOptions, falsy]
          rintro rfl
          simp
        · simp [transcribeOptions, falsy, hv, hauto]
          rintro rfl
          exact ⟨hv, hauto⟩
  · intro native
    cases h : native.language <;> simp [format_result, h]

/-! ## Claim C6: word flattening -/

/-- C6: for an engine result with two segments of two words each, the
adapter's formatted output has exactly four `words` entries, in segment
order then word order, each carrying the native `word`, `start` and `end`
verbatim (per-word probability fields are dropped); and whenever the
engine returns a native result, the adapter's output is exactly that
formatting. -/
theorem claim_C6 :
    (∀ (txt : String) (lang : Option String) (a b c d : ℚ) (t1 t2 : String)
        (w1 w2 w3 w4 : NativeWord),
      (format_result
        { text := txt, language := lang,
          segments := some
            [{ start := a, stop := b, text := t1, words := some [w1, w2] },
             { start := c, stop := d, text := t2, words := some [w3, w4] }] }).words =
        [{ word := w1.word, start := w1.start, stop := w1.stop },
         { word := w2.word, start := w2.start, stop := w2.stop },
         { word := w3.word, start := w3.start, stop := w3.stop },
         { word := w4.word, start := w4.start, stop := w4.stop }])
  ∧ (∀ (env : TransEnv) (path model : String) (lang : Option String)
        (native : WhisperNative),
      env.whisperRun model path (transcribeOptions lang) = .ok native →
      transcribe_audio env path model lang = .ok (format_result native)) := by
  constructor
  · intro txt lang a b c d t1 t2 w1 w2 w3 w4
    simp [format_result]
  · intro env path model lang native h
    simp [transcribe_audio, h]

/-- C6 witness: the concrete two-by-two native result flattens to the
four expected words, through the adapter. -/
theorem claim_C6_witness :
    transcribe_audio transEnvOk "talk.wav" "small" none =
      .ok (format_result nativeTwoByTwo)
  ∧ (format_result nativeTwoByTwo).words =
      [{ word := "hello", start := 0, stop := mkRat 1 2 },
       { word := "world", start := mkRat 1 2, stop := 1 },
       { word := "again", start := 1, stop := mkRat 3 2 },
       { word := "friend", start := mkRat 3 2, stop := 2 }] :=
  ⟨claim_C6.2 transEnvOk "talk.wav" "small" none nativeTwoByTwo rfl, rfl⟩

/-! ## Lemmas about first-appearance order and id assignment -/

theorem mem_firstSeen_aux (ls : List String) :
    ∀ (acc : List String) (a : String),
      (a ∈ ls.foldl (fun acc l => if l ∈ acc then acc else acc ++ [l]) acc) ↔
        a ∈ acc ∨ a ∈ ls := by
  induction ls with
  | nil =>
    intro acc a
    simp
  | cons l ls ih =>
    intro acc a
    rw [List.foldl_cons, ih]
    by_cases h : l ∈ acc
    · rw [if_pos h]
      constructor
      · rintro (ha | ha)
        · exact Or.inl ha
        · exact Or.inr (List.mem_cons_of_mem _ ha)
      · rintro (ha | ha)
        · exact Or.inl ha
        · rcases List.mem_cons.mp ha with rfl | ha
          · exact Or.inl h
          · exact Or.inr ha
    · rw [if_neg h]
      simp only [List.mem_append, List.mem_singleton, List.mem_cons]
      tauto

theorem mem_firstSeen (ls : List String) (a : String) :
    a ∈ firstSeen ls ↔ a ∈ ls := by
  unfold firstSeen
  rw [mem_firstSeen_aux]
  simp

theorem nodup_firstSeen_aux (ls : List String) :
    ∀ acc : List String, acc.Nodup →
      (ls.foldl (fun acc l => if l ∈ acc then acc else acc ++ [l]) acc).Nodup := by
  induction ls with
  | nil =>
    intro acc h
    simpa using h
  | cons l ls ih =>
    intro acc h
    rw [List.foldl_cons]
    by_cases hmem : l ∈ acc
    · rw [if_pos hmem]
      exact ih acc h
    · rw [if_neg hmem]
      refine ih _ ?_
      rw [List.nodup_append]
      refine ⟨h, List.nodup_singleton l, ?_⟩
      intro a ha hl
      rw [List.mem_singleton] at hl
      subst hl
      exact hmem ha

theorem nodup_firstSeen (ls : List String) : (firstSeen ls).Nodup :=
  nodup_firstSeen_aux ls [] List.nodup_nil

theorem firstSeen_concat (ls : List String) (x : String) :
    firstSeen (ls ++ [x]) =
      if x ∈ firstSeen ls then firstSeen ls else firstSeen ls ++ [x] := by
  unfold firstSeen
  rw [List.foldl_append]
  simp only [List.foldl_cons, List.foldl_nil]

theorem withIds_append (xs ys : List String) :
    ∀ n : ℕ, withIds (xs ++ ys) n = withIds xs n ++ withIds ys (n + xs.length) := by
  induction xs with
  | nil =>
    intro n
    simp [withIds]
  | cons l xs ih =>
    intro n
    have harith : n + 1 + xs.length = n + (xs.length + 1) := by omega
    simp only [List.cons_append, withIds, List.length_cons, List.append_eq]
    rw [ih (n + 1), harith]

theorem slookup_append {β : Type} (A B : List (String × β)) (k : String) :
    slookup (A ++ B) k =
      match slookup A k with
      | some v => some v
      | none => slookup B k := by
  induction A with
  | nil => simp [slookup]
  | cons p A ih =>
    obtain ⟨a, b⟩ := p
    by_cases h : a = k <;> simp [slookup, h, ih]

theorem slookup_withIds_not_mem (L : List String) :
    ∀ (n : ℕ) (s : String), s ∉ L → slookup (withIds L n) s = none := by
  induction L with
  | nil =>
    intro n s _
    rfl
  | cons l L ih =>
    intro n s hs
    rw [List.mem_cons, not_or] at hs
    simp only [withIds, slookup]
    rw [if_neg (Ne.symm hs.1), ih (n + 1) s hs.2]

theorem slookup_withIds_bound (L : List String) :
    ∀ (n : ℕ) (s : String), s ∈ L →
      ∃ k, slookup (withIds L n) s = some k ∧ n ≤ k := by
  induction L with
  | nil =>
    intro n s hs
    simp at hs
  | cons l L ih =>
    intro n s hs
    by_cases h : l = s
    · exact ⟨n, by simp [withIds, slookup, h], le_refl n⟩
    · rcases List.mem_cons.mp hs with rfl | hs'
      · exact absurd rfl h
      · obtain ⟨k, hk, hnk⟩ := ih (n + 1) s hs'
        refine ⟨k, ?_, by omega⟩
        simp only [withIds, slookup]
        rw [if_neg h, hk]

theorem mem_withIds_fst (L : List String) :
    ∀ (n : ℕ) (p : String × ℕ), p ∈ withIds L n → p.1 ∈ L := by
  induction L with
  | nil =>
    intro n p hp
    simp [withIds] at hp
  | cons l L ih =>
    intro n p hp
    rcases List.mem_cons.mp hp with rfl | hp'
    · exact List.mem_cons_self _ _
    · exact List.mem_cons_of_mem _ (ih (n + 1) p hp')

theorem mem_withIds_snd_lt (L : List String) :
    ∀ (n : ℕ) (p : String × ℕ), p ∈ withIds L n → n ≤ p.2 ∧ p.2 < n + L.length := by
  induction L with
  | nil =>
    intro n p hp
    simp [withIds] at hp
  | cons l L ih =>
    intro n p hp
    rcases List.mem_cons.mp hp with rfl | hp'
    · simp
    · obtain ⟨h1, h2⟩ := ih (n + 1) p hp'
      constructor
      · omega
      · simp only [List.length_cons]
        omega

theorem withIds_map_snd (L : List String) :
    ∀ n : ℕ, (withIds L n).map (fun p => p.2) = List.range' n L.length := by
  induction L with
  | nil =>
    intro n
    rfl
  | cons l L ih =>
    intro n
    simp only [withIds, List.map_cons, List.length_cons, List.range'_succ, ih (n + 1)]

theorem pairwise_withIds (L : List String) :
    ∀ n : ℕ, List.Pairwise (fun p q : String × ℕ => p.2 < q.2) (withIds L n) := by
  induction L with
  | nil =>
    intro n
    exact List.Pairwise.nil
  | cons l L ih =>
    intro n
    refine List.Pairwise.cons ?_ (ih (n + 1))
    intro q hq
    exact lt_of_lt_of_le (Nat.lt_succ_self n) (mem_withIds_snd_lt L (n + 1) q hq).1

theorem alookup_map_none {β : Type} (m : List (String × ℕ)) (f : String → β)
    (k : ℕ) (h : ∀ p ∈ m, p.2 ≠ k) :
    alookup (m.map (fun p => (p.2, f p.1))) k = none := by
  induction m with
  | nil => rfl
  | cons p m ih =>
    simp only [List.map_cons, alookup]
    rw [if_neg (h p (List.mem_cons_self p m))]
    exact ih fun q hq => h q (List.mem_cons_of_mem p hq)

/-- Lookup and in-place update of the id-keyed `speaker_times` list built
over `withIds`: looking up a seen label's id finds its accumulated value,
and updating it rewrites exactly that label's entry. -/
theorem times_lookup_update (L : List String) :
    ∀ (n : ℕ) (f : String → ℚ) (v : ℚ) (s : String), L.Nodup → s ∈ L →
      alookup ((withIds L n).map (fun p => (p.2, f p.1)))
          ((slookup (withIds L n) s).getD 0) = some (f s)
      ∧ updateA ((withIds L n).map (fun p => (p.2, f p.1)))
          ((slookup (withIds L n) s).getD 0) v =
        (withIds L n).map (fun p => (p.2, if p.1 = s then v else f p.1)) := by
  induction L with
  | nil =>
    intro n f v s _ hs
    simp at hs
  | cons l L ih =>
    intro n f v s hnd hs
    have hndL : L.Nodup := (List.nodup_cons.mp hnd).2
    have hlnot : l ∉ L := (List.nodup_cons.mp hnd).1
    by_cases h : l = s
    · subst h
      have hw : withIds (l :: L) n = (l, n) :: withIds L (n + 1) := rfl
      have hsl : slookup ((l, n) :: withIds L (n + 1)) l = some n := by
        simp [slookup]
      rw [hw, hsl]
      simp only [Option.getD_some, List.map_cons]
      constructor
      · simp [alookup]
      · simp only [updateA, ite_true, if_true]
        congr 1
        apply List.map_congr_left
        intro p hp
        have hpl : p.1 ∈ L := mem_withIds_fst L (n + 1) p hp
        have hne : p.1 ≠ l := fun hEq => hlnot (hEq ▸ hpl)
        rw [if_neg hne]
    · rcases List.mem_cons.mp hs with rfl | hs'
      · exact absurd rfl h
      · obtain ⟨k, hk, hnk⟩ := slookup_withIds_bound L (n + 1) s hs'
        have hkn : k ≠ n := by omega
        obtain ⟨ihl, ihu⟩ := ih (n + 1) f v s hndL hs'
        rw [hk] at ihl ihu
        simp only [Option.getD_some] at ihl ihu
        have hw : withIds (l :: L) n = (l, n) :: withIds L (n + 1) := rfl
        have hsl : slookup ((l, n) :: withIds L (n + 1)) s = some k := by
          simp only [slookup]
          rw [if_neg h, hk]
        rw [hw, hsl]
        simp only [Option.getD_some, List.map_cons]
        constructor
        · simp only [alookup]
          rw [if_neg (Ne.symm hkn)]
          exact ihl
        · simp only [updateA]
          rw [if_neg (Ne.symm hkn), ihu, if_neg h]

theorem turnDurSum_concat (ps : List Turn) (t : Turn) (l : String) :
    turnDurSum (ps ++ [t]) l =
      turnDurSum ps l + (if t.speaker = l then t.stop - t.start else 0) := by
  unfold turnDurSum
  rw [List.filter_append]
  by_cases h : t.speaker = l
  · simp [h]
  · simp [h]

theorem turnDurSum_not_mem (ps : List Turn) (l : String)
    (h : l ∉ ps.map Turn.speaker) : turnDurSum ps l = 0 := by
  unfold turnDurSum
  have : ps.filter (fun t => t.speaker = l) = [] := by
    rw [List.filter_eq_nil_iff]
    intro t ht hdec
    apply h
    rw [List.mem_map]
    exact ⟨t, ht, of_decide_eq_true hdec⟩
  rw [this]
  rfl

theorem labels_concat (pre : List Turn) (t : Turn) :
    (pre ++ [t]).map Turn.speaker = pre.map Turn.speaker ++ [t.speaker] := by
  simp

theorem idOf_concat_seen (pre : List Turn) (t : Turn)
    (h : t.speaker ∈ firstSeen (pre.map Turn.speaker)) (l : String) :
    idOf (pre ++ [t]) l = idOf pre l := by
  unfold idOf
  rw [labels_concat, firstSeen_concat, if_pos h]

theorem idOf_concat_new (pre : List Turn) (t : Turn)
    (h : t.speaker ∉ firstSeen (pre.map Turn.speaker)) (l : String)
    (hl : l ∈ firstSeen (pre.map Turn.speaker)) :
    idOf (pre ++ [t]) l = idOf pre l := by
  unfold idOf
  rw [labels_concat, firstSeen_concat, if_neg h, withIds_append, slookup_append]
  obtain ⟨k, hk, _⟩ := slookup_withIds_bound _ 1 l hl
  rw [hk]

theorem idOf_concat_self_new (pre : List Turn) (t : Turn)
    (h : t.speaker ∉ firstSeen (pre.map Turn.speaker)) :
    idOf (pre ++ [t]) t.speaker =
      (firstSeen (pre.map Turn.speaker)).length + 1 := by
  unfold idOf
  rw [labels_concat, firstSeen_concat, if_neg h, withIds_append, slookup_append,
    slookup_withIds_not_mem _ 1 _ h]
  simp [withIds, slookup]
  omega

/-- One loop iteration keeps the state in declarative form. -/
theorem declState_step (pre : List Turn) (t : Turn) :
    diarStep (declState pre) t = declState (pre ++ [t]) := by
  have hid_pre : ∀ l, idOf pre l = (slookup (withIds (firstSeen (pre.map Turn.speaker)) 1) l).getD 0 :=
    fun l => rfl
  by_cases hmem : t.speaker ∈ firstSeen (pre.map Turn.speaker)
  · -- the label has been seen: mapping and counter unchanged, times updated
    have hnd := nodup_firstSeen (pre.map Turn.speaker)
    obtain ⟨k, hk, hk1⟩ := slookup_withIds_bound _ 1 t.speaker hmem
    obtain ⟨hlook, hupd⟩ := times_lookup_update (firstSeen (pre.map Turn.speaker)) 1
      (turnDurSum pre) (turnDurSum pre t.speaker + (t.stop - t.start)) t.speaker hnd hmem
    rw [hk] at hlook hupd
    simp only [Option.getD_some] at hlook hupd
    have hid : idOf pre t.speaker = k := by
      rw [hid_pre, hk]
      rfl
    simp only [diarStep, declState, hk, Option.getD_some, hlook, hupd, DiarState.mk.injEq]
    refine ⟨?_, ?_, ?_, ?_⟩
    · unfold segmentsSpec
      rw [List.map_append]
      congr 1
      · apply List.map_congr_left
        intro t' _
        rw [idOf_concat_seen pre t hmem]
      · simp only [List.map_cons, List.map_nil]
        rw [idOf_concat_seen pre t hmem, hid]
    · rw [labels_concat, firstSeen_concat, if_pos hmem]
      apply List.map_congr_left
      intro p hp
      by_cases hps : p.1 = t.speaker
      · rw [if_pos hps, turnDurSum_concat, hps, if_pos rfl]
      · rw [if_neg hps, turnDurSum_concat,
          if_neg (fun hEq : t.speaker = p.1 => hps hEq.symm), add_zero]
    · rw [labels_concat, firstSeen_concat, if_pos hmem]
    · rw [labels_concat, firstSeen_concat, if_pos hmem]
  · -- a new label: mapping and times extended, counter incremented
    have hnot_labels : t.speaker ∉ pre.map Turn.speaker := fun hin =>
      hmem ((mem_firstSeen _ _).mpr hin)
    have hnone := slookup_withIds_not_mem (firstSeen (pre.map Turn.speaker)) 1 t.speaker hmem
    have hnew : slookup (withIds (firstSeen (pre.map Turn.speaker)) 1 ++
        [(t.speaker, (firstSeen (pre.map Turn.speaker)).length + 1)]) t.speaker =
        some ((firstSeen (pre.map Turn.speaker)).length + 1) := by
      rw [slookup_append, hnone]
      simp [slookup]
    have htimes_none : alookup ((withIds (firstSeen (pre.map Turn.speaker)) 1).map
        (fun p => (p.2, turnDurSum pre p.1)))
        ((firstSeen (pre.map Turn.speaker)).length + 1) = none := by
      apply alookup_map_none
      intro p hp
      have := (mem_withIds_snd_lt _ 1 p hp).2
      omega
    simp only [diarStep, declState, hnone, hnew, Option.getD_some, htimes_none,
      DiarState.mk.injEq]
    refine ⟨?_, ?_, ?_, ?_⟩
    · unfold segmentsSpec
      rw [List.map_append]
      congr 1
      · apply List.map_congr_left
        intro t' ht'
        rw [idOf_concat_new pre t hmem]
        rw [mem_firstSeen]
        exact List.mem_map_of_mem Turn.speaker ht'
      · simp only [List.map_cons, List.map_nil]
        rw [idOf_concat_self_new pre t hmem]
    · rw [labels_concat, firstSeen_concat, if_neg hmem, withIds_append, List.map_append]
      congr 1
      · apply List.map_congr_left
        intro p hp
        have hpl : p.1 ∈ firstSeen (pre.map Turn.speaker) := mem_withIds_fst _ 1 p hp
        have hps : t.speaker ≠ p.1 := fun hEq => hmem (hEq ▸ hpl)
        rw [turnDurSum_concat, if_neg hps, add_zero]
      · simp only [withIds, List.map_cons, List.map_nil]
        rw [turnDurSum_concat, if_pos rfl, turnDurSum_not_mem pre t.speaker hnot_labels,
          Nat.add_comm 1]
    · rw [labels_concat, firstSeen_concat, if_neg hmem, withIds_append]
      simp only [withIds]
      rw [Nat.add_comm 1]
    · rw [labels_concat, firstSeen_concat, if_neg hmem]
      simp

theorem declState_nil :
    declState [] =
      { segments := [], speaker_times := [], speaker_mapping := [],
        speaker_counter := 1 } := rfl

theorem foldl_diarStep (rest : List Turn) :
    ∀ pre : List Turn,
      List.foldl diarStep (declState pre) rest = declState (pre ++ rest) := by
  induction rest with
  | nil =>
    intro pre
    simp
  | cons t rest ih =>
    intro pre
    rw [List.foldl_cons, declState_step, ih (pre ++ [t])]
    simp

/-- The `speaker_times` dict items are already sorted by key, so Python's
`sorted` leaves them unchanged. -/
theorem speaker_times_sorted (turns : List Turn) :
    ((declState turns).speaker_times.insertionSort (fun p q => p.1 ≤ q.1)) =
      (declState turns).speaker_times := by
  apply List.Sorted.insertionSort_eq
  show List.Pairwise (fun p q : ℕ × ℚ => p.1 ≤ q.1) ((withIds
    (firstSeen (turns.map Turn.speaker)) 1).map (fun p => (p.2, turnDurSum turns p.1)))
  refine List.Pairwise.map _ ?_ (pairwise_withIds (firstSeen (turns.map Turn.speaker)) 1)
  intro a b h
  exact le_of_lt h

/-- Full characterization of the engine-path result shaping. -/
theorem pyannoteProcess_eq (turns : List Turn) :
    pyannoteProcess turns =
      { method := "pyannote"
        speaker_count := (speakersSpec turns).length
        segments := segmentsSpec turns
        speakers := speakersSpec turns } := by
  have hst : List.foldl diarStep
      { segments := [], speaker_times := [], speaker_mapping := [],
        speaker_counter := 1 } turns = declState turns := by
    have h := foldl_diarStep turns []
    rw [declState_nil] at h
    simpa using h
  have hseg : (declState turns).segments = segmentsSpec turns := rfl
  have hspk : (((declState turns).speaker_times.insertionSort
        (fun p q => p.1 ≤ q.1)).map fun p =>
          ({ id := p.1, name := "Speaker " ++ toString p.1,
             total_duration := roundTo 2 p.2 } : SpeakerInfo)) =
        speakersSpec turns := by
    rw [speaker_times_sorted]
    show ((withIds (firstSeen (turns.map Turn.speaker)) 1).map
        (fun p => (p.2, turnDurSum turns p.1))).map _ = _
    rw [List.map_map]
    rfl
  unfold pyannoteProcess
  simp only [hst, hspk, hseg]

/-! ## Claim C1: dense speaker ids in first-appearance order -/

/-- C1: on the engine path, segments are emitted in the original turn
order with each segment's `speakerId` equal to its label's dense
first-appearance id (ids assigned from 1 on); the `speakers` list has one
entry per distinct label in that same order, so its ids are exactly
`1, 2, ...` ascending; and on the synthetic `[A,B,A]` engine output with
durations `[2.0, 1.5, 3.0]` the adapter assigns id 1 to A and id 2 to B
and returns exactly the expected speakers and segments. -/
theorem claim_C1 :
    (∀ turns : List Turn,
      (pyannoteProcess turns).segments = segmentsSpec turns
      ∧ (pyannoteProcess turns).speakers = speakersSpec turns
      ∧ (pyannoteProcess turns).speakers.map (fun s => s.id) =
          List.range' 1 (firstSeen (turns.map Turn.speaker)).length)
  ∧ pyannoteProcess exampleTurns =
      { method := "pyannote"
        speaker_count := 2
        segments := [{ start := 0, stop := 2, speaker := "Speaker 1", speakerId := 1 },
                     { start := 2, stop := mkRat 7 2, speaker := "Speaker 2", speakerId := 2 },
                     { start := mkRat 7 2, stop := mkRat 13 2, speaker := "Speaker 1", speakerId := 1 }]
        speakers := [{ id := 1, name := "Speaker 1", total_duration := 5 },
                     { id := 2, name := "Speaker 2", total_duration := mkRat 3 2 }] } := by
  constructor
  · intro turns
    rw [pyannoteProcess_eq]
    refine ⟨rfl, rfl, ?_⟩
    show (speakersSpec turns).map (fun s => s.id) = _
    unfold speakersSpec
    rw [List.map_map]
    exact withIds_map_snd (firstSeen (turns.map Turn.speaker)) 1
  · rfl

/-! ## Claim C3: speaker totals versus segment sums -/

/-- C3 counterexample: for the one-turn engine output with the turn
`(0.004, 1.0)`, the speaker total is the 2-decimal rounding of the raw
duration 0.996, namely 1.0, while the sum of `(end - start)` over that
speaker's emitted segments is 0.996 — the two differ, refuting the
claimed invariant over the `segments` sequence. -/
theorem claim_C3_cex :
    (pyannoteProcess roundingTurns).speakers =
      [{ id := 1, name := "Speaker 1", total_duration := 1 }]
  ∧ segDurSum (pyannoteProcess roundingTurns).segments 1 = mkRat 249 250
  ∧ (1 : ℚ) ≠ mkRat 249 250 :=
  ⟨rfl, rfl, by decide⟩

/-- C3 (amended): in every successful engine-path result, each speaker's
`total_duration` is the 2-decimal rounding of the sum of raw
`(end - start)` over that speaker's turns in the engine output (the
emitted segments carry 3-decimal-rounded endpoints, so summing over the
`segments` sequence can differ from the stored total). -/
theorem claim_C3_amended (turns : List Turn) :
    (pyannoteProcess turns).speakers = speakersSpec turns := by
  rw [pyannoteProcess_eq]

end Kalakar
